import Mathlib

/-!
Verification of the dronebot live-trading core (`dronebot.py`).

This file gives a shallow embedding of the decision/control pipeline of the
repository and proves, or refutes, the frozen claims about it.

Conventions of the embedding:
* Python floats are modelled as elements of a `LinearOrderedField` (instantiated
  at `ℚ` for executable functions and at `ℝ` for the pieces that touch
  `math.sqrt`).  `NaN`/`inf` inputs are modelled as `none` (they are rejected by
  `sanitize_price` exactly as non-finite floats are in the source).
* Python `Optional[float]` is `Option α`; Python truthiness of a float
  (`not x` is true for `None` and `0.0`) is the `truthy` predicate below.
* `datetime.time` values are minutes since midnight (`Time := ℕ`); every time
  comparison in the source is at whole-minute granularity.
* Stateful code (the `run_live` tick loop) is explicit state passing over
  `SymState`; broker interactions (position reports, order fills) are inputs
  supplied by the environment records.
-/

/-- Times of day, as minutes after midnight (US/Eastern, as in `TZ`). -/
abbrev Time := ℕ

/-- Build a time of day from hours and minutes. -/
def hm (h m : ℕ) : Time := h * 60 + m

/-- Constant `AM_START = dt.time(9,30)`. -/
def AM_START : Time := hm 9 30

/-- Constant `AM_END = dt.time(11,0)`. -/
def AM_END : Time := hm 11 0

/-- Constant `PM_START = dt.time(14,0)`. -/
def PM_START : Time := hm 14 0

/-- Constant `PM_END = dt.time(16,0)`. -/
def PM_END : Time := hm 16 0

/-- Python truthiness of an optional float: `None` and `0.0` are falsy. -/
def truthy {α : Type*} [Zero α] [DecidableEq α] : Option α → Bool
  | none => false
  | some x => if x = 0 then false else true

/-- Python `a or b` on optional floats: the first operand when truthy, else the
second operand. -/
def pyOr {α : Type*} [Zero α] [DecidableEq α] (a b : Option α) : Option α :=
  if truthy a then a else b

/-- Python `a or d` where `d` is a plain float: the value of `a` when truthy,
else `d`. -/
def pyOrD {α : Type*} [Zero α] [DecidableEq α] (a : Option α) (d : α) : α :=
  if truthy a then a.getD 0 else d

section PureFunctions

variable {α : Type*} [LinearOrderedField α]

/-- Embedding of `sanitize_price` (dronebot.py:337-349): a positive finite
float, else `None`.  Non-finite floats are represented as `none` inputs. -/
def sanitize_price (value : Option α) : Option α :=
  match value with
  | none => none
  | some v => if v ≤ 0 then none else some v

/-- Embedding of `spread_bps` (dronebot.py:330-334). -/
def spread_bps (bid ask : Option α) : Option α :=
  match bid, ask with
  | some b, some a =>
      if truthy (some b) ∧ truthy (some a) ∧ b > 0 ∧ a > 0 then
        some ((a - b) / ((b + a) / 2) * 10000)
      else none
  | _, _ => none

/-- Anchor snapshot produced by `anchors_from_bars`: pre-market, opening-range
and regular-session medians (`pma_mid`, `ib_mid`, `rth_mid`). -/
structure Anchors (α : Type*) where
  pma_mid : Option α
  ib_mid : Option α
  rth_mid : Option α
  deriving DecidableEq

/-- Embedding of `blended_ref` (dronebot.py:255-266).  Note that the source
uses Python `or`-chains, so a mid equal to `0.0` is treated as absent. -/
def blended_ref (now : Time) (feats : Anchors α) (fallback : α) : α :=
  let pma_mid := feats.pma_mid
  let ib_mid := feats.ib_mid
  let rth_mid := feats.rth_mid
  let ref : α :=
    if now < hm 10 0 then
      pyOrD (pyOr (pyOr ib_mid pma_mid) rth_mid) fallback
    else if now < hm 11 0 then
      if truthy ib_mid ∧ truthy rth_mid then
        (1/2) * ib_mid.getD 0 + (1/2) * rth_mid.getD 0
      else pyOrD (pyOr ib_mid rth_mid) fallback
    else
      pyOrD (pyOr (pyOr rth_mid ib_mid) pma_mid) fallback
  if ref = 0 then fallback else ref

/-- A minute bar, reduced to the fields `anchors_from_bars` reads: its bar time
converted to US/Eastern time of day, and its close. -/
structure Bar (α : Type*) where
  t : Time
  close : α

/-- Embedding of the local helper `mid_span` in `anchors_from_bars`
(dronebot.py:246-249): Python `sorted` is a stable ascending sort, and
`s[len(s)//2]` is the upper median. -/
def mid_span (xs : List α) : Option α × Option α :=
  match xs with
  | [] => (none, none)
  | _ =>
    let s := xs.mergeSort (fun a b => a ≤ b)
    let m := s.getD (s.length / 2) 0
    let span := if xs.length > 1 then s.foldl max (s.getD 0 0) - s.foldl min (s.getD 0 0) else 0
    (some m, some span)

/-- Embedding of `anchors_from_bars` (dronebot.py:240-253).  The comprehension
filters `and b.close` exclude bars whose close is `0.0` (falsy). -/
def anchors_from_bars (bars : List (Bar α)) : Anchors α :=
  let pma := (bars.filter (fun b => decide (b.t < hm 9 30) && truthy (some b.close))).map Bar.close
  let ib := (bars.filter (fun b => decide (hm 9 30 ≤ b.t ∧ b.t < hm 10 0) && truthy (some b.close))).map Bar.close
  let rth := (bars.filter (fun b => decide (hm 9 30 ≤ b.t) && truthy (some b.close))).map Bar.close
  { pma_mid := (mid_span pma).1
    ib_mid := (mid_span ib).1
    rth_mid := (mid_span rth).1 }

variable {α : Type*} [LinearOrderedField α] [FloorRing α]

/-- Embedding of `widen_levels_for_display` (dronebot.py:63-132).  The source
body reads the module-level global `ANCHOR_DISTANCE_MULT`, which is never
defined anywhere in the repository; the first parameter models the lookup of
that global, and a `none` lookup is the resulting `NameError`
(`Except.error ()`).  Every other guard and clamp mirrors the source. -/
def widen_levels_for_display (anchor_distance_mult : Option α) (ref? : Option α)
    (levels : List (Option α)) (direction : String) (spread_mult : α)
    (anchor_idx : ℤ) (clamp_eps : α) : Except Unit (List (Option α)) :=
  let base_levels := levels
  let widened := base_levels
  match ref? with
  | none => .ok widened
  | some ref =>
    if spread_mult ≤ 1 ∨ widened = [] ∨ anchor_idx < 0 ∨ (widened.length : ℤ) ≤ anchor_idx then
      .ok widened
    else
      let ai := anchor_idx.toNat
      match base_levels.getD ai none with
      | none => .ok widened
      | some anchor0 =>
        match anchor_distance_mult with
        | none => .error ()
        | some adm =>
          let p :=
            if adm > 1 then
              let anchor_target := ref + (anchor0 - ref) * adm
              let anchor_target :=
                if direction = "down" ∧ anchor_target > ref ∧ ref > 0 then ref * (1 - clamp_eps)
                else if direction = "up" ∧ anchor_target < ref ∧ ref > 0 then ref * (1 + clamp_eps)
                else anchor_target
              (widened.set ai (some anchor_target), anchor_target)
            else (widened, anchor0)
          let anchor_level := p.2
          .ok (p.1.mapIdx (fun idx lvl =>
            match base_levels.getD idx none with
            | none => lvl
            | some base_level =>
              if idx = ai then lvl
              else
                let diff := base_level - anchor0
                let target := anchor_level + diff * spread_mult
                let target :=
                  if direction = "down" ∧ diff > 0 ∧ ref > 0 then min (ref * (1 - clamp_eps)) target
                  else if direction = "up" ∧ diff < 0 ∧ ref > 0 then max (ref * (1 + clamp_eps)) target
                  else target
                some target))

/-- Rounding to four decimal places, as `round(lmt, 4)` does at order
submission (dronebot.py:387,418).  Mathlib's `round` is round-half-up while
Python's is round-half-even on floats; they agree away from exact `5e-5` ties,
and no value in this development sits on such a tie. -/
def round4 (x : α) : α := (round (x * 10000) : ℤ) / 10000

/-- The candidate reference prices of `place_ioc_buy` / `place_ioc_sell`
(dronebot.py:378-381, 409-412): sanitize, drop invalid entries, and fall back
to the nominal floor `[0.01]` when nothing survives. -/
def ioc_candidates (raw : List (Option α)) : List α :=
  let l := raw.filterMap sanitize_price
  if l = [] then [1/100] else l

/-- The urgency bump (dronebot.py:384, 415): 0.4% normally, 2% when the
urgency string is `'urgent'`. -/
def ioc_bump (urgency : String) : α := if urgency ≠ "urgent" then 4/1000 else 2/100

/-- The limit price computed by `place_ioc_buy` (dronebot.py:375-385):
`max` of the candidates bumped up, floored at `0.01`
(`lmt = max(0.01, base * (1.0 + bump))`). -/
def ioc_buy_limit (bid ask last : Option α) (urgency : String) : α :=
  let ref_prices := ioc_candidates [last, ask, bid]
  let base := ref_prices.foldl max (ref_prices.headD 0)
  max (1/100) (base * (1 + ioc_bump urgency))

/-- The limit price computed by `place_ioc_sell` (dronebot.py:406-416):
`min` of the candidates bumped down, floored at `0.01`
(`lmt = max(0.01, base * (1.0 - bump))`). -/
def ioc_sell_limit (bid last : Option α) (urgency : String) : α :=
  let ref_prices := ioc_candidates [last, bid]
  let base := ref_prices.foldl min (ref_prices.headD 0)
  max (1/100) (base * (1 - ioc_bump urgency))

/-- The order-submission half of `place_ioc_buy` (dronebot.py:366-395):
`none` when `qty ≤ 0` (no order is submitted), otherwise the submitted IOC
limit order as `(limit price, quantity)`, the price rounded to 4 decimals as
in `LimitOrder('BUY', qty, round(lmt, 4), tif='IOC')`. -/
def ioc_buy_order (qty : ℤ) (bid ask last : Option α) (urgency : String) : Option (α × ℤ) :=
  if qty ≤ 0 then none else some (round4 (ioc_buy_limit bid ask last urgency), qty)

/-- The order-submission half of `place_ioc_sell` (dronebot.py:398-425). -/
def ioc_sell_order (qty : ℤ) (bid last : Option α) (urgency : String) : Option (α × ℤ) :=
  if qty ≤ 0 then none else some (round4 (ioc_sell_limit bid last urgency), qty)

/-- One broker fill record as read by `_avg_price_and_qty`:
`shares = int(f.execution.shares)` and
`avgPrice = float(getattr(f.execution, 'avgPrice', 0.0) or 0.0)` (a missing,
`None` or `0.0` price coerces to `0.0`). -/
structure Fill (α : Type*) where
  shares : ℤ
  avgPrice : α

/-- Embedding of `_avg_price_and_qty` (dronebot.py:351-363). -/
def _avg_price_and_qty (fills : List (Fill α)) : Option α × ℤ :=
  let acc := fills.foldl
    (fun (acc : ℤ × α) f =>
      if f.shares ≤ 0 then acc else (acc.1 + f.shares, acc.2 + f.avgPrice * f.shares))
    (0, 0)
  if acc.1 ≤ 0 then (none, 0) else (some (acc.2 / acc.1), acc.1)

/-- The ladder sizing loop of `run_live` (dronebot.py:646-655), as a structural
recursion on the rung multipliers: per-rung shares are
`max(1, ceil(clip*mult / max(0.01, last)))` and the returned list is the
running cumulative totals, threaded through `total`. -/
def ladder_cumulative_aux (clip_usd last : α) (total : ℤ) : List α → List ℤ
  | [] => []
  | mult :: rest =>
      let shares : ℤ := max 1 ⌈clip_usd * mult / max (1/100) last⌉
      let t := total + shares
      t :: ladder_cumulative_aux clip_usd last t rest

/-- Cumulative share thresholds (`cumulative_shares` in dronebot.py:648-655). -/
def ladder_cumulative (clip_usd last : α) (mults : List α) : List ℤ :=
  ladder_cumulative_aux clip_usd last 0 mults

/-- Embedding of `dynamic_clip_usd` (dronebot.py:312-327) with the default
configuration (`CLASS_ALLOC = {'risky': 0.6, 'safe': 0.4}`,
`DEFAULT_EQUITY_CAP = 150000`, `TARGET_UTILIZATION_FRAC = 0.67`,
`SHOTS_PER_TICKER = 12`, `RISKY_CLIP_MULT = 1.15`, `SAFE_CLIP_MULT = 0.85`,
`CLIP_PRICE_REF = 50`, `MIN_CLIP_USD = 100`, `MAX_CLIP_USD = 6000`).
`nclass` is the number of configured symbols sharing the class
(`sum(...) or 1`). -/
def dynamic_clip_usd (klass : String) (nclass : ℕ) (last : α) : α :=
  let class_frac : α := if klass = "risky" then 6/10 else if klass = "safe" then 4/10 else 1/2
  let effective_equity : α := 150000 * (67/100)
  let class_budget := effective_equity * class_frac
  let per_ticker_budget := class_budget / (max 1 nclass : ℕ)
  let base_clip := per_ticker_budget / (max 1 12 : ℕ)
  let risk_mult : α := if klass = "risky" then 115/100 else 85/100
  let price_weight : α := max (1/2) (min 2 (50 / max 1 last))
  max 100 (min 6000 (base_clip * risk_mult * price_weight))

end PureFunctions

/-! ### The live control loop (`run_live`), per symbol

The per-symbol state of `run_live` — `pos`, `avg`, `rpnls`, `trail_hi`,
`last_buy_time` (all `defaultdict`s starting at zero) and the symbol's
`VWVState` — is gathered into `SymState`.  The broker side of a tick (the
position report, the quote and the fill result of each order the tick may
submit) is an environment record.  Floats are `ℝ` here because
`VWVState.update` uses `math.sqrt`. -/

/-- Session check `in_session` (dronebot.py:509). -/
def in_session (t : Time) : Prop :=
  (AM_START ≤ t ∧ t < AM_END) ∨ (PM_START ≤ t ∧ t < PM_END)

instance : DecidablePred in_session := fun _ => by unfold in_session; infer_instance

/-- Regular-trading-hours check `in_rth` (dronebot.py:510). -/
def in_rth (t : Time) : Prop := AM_START ≤ t ∧ t < PM_END

instance : DecidablePred in_rth := fun _ => by unfold in_rth; infer_instance

/-- State of one symbol's `VWVState` tracker (dronebot.py:269-273). -/
structure VWVState where
  window : ℕ
  dv : List ℝ
  last_total_vol : Option ℤ

/-- Append for `deque(maxlen=window)`: drop the oldest element once full. -/
def dq_append (w : ℕ) (l : List ℝ) (x : ℝ) : List ℝ :=
  if l.length < w then l ++ [x] else l.drop 1 ++ [x]

/-- Embedding of `VWVState.update` (dronebot.py:275-308).  The returned pair is
(z-score, new state). -/
noncomputable def VWVState.update (s : VWVState) (last_price : Option ℝ)
    (total_volume : Option ℤ) : ℝ × VWVState :=
  if ¬ truthy last_price ∨ total_volume = none then (0, s)
  else
    let tv := total_volume.getD 0
    let lp := last_price.getD 0
    let zdv : ℝ × List ℝ :=
      match s.last_total_vol with
      | none => (0, s.dv)
      | some prev =>
        if tv > prev then
          let dvol := tv - prev
          let d := lp * ((max 0 dvol : ℤ) : ℝ)
          let buf := dq_append s.window s.dv d
          let z :=
            if buf.length > 1 then
              let latest := buf.getLastD 0
              let prior := buf.dropLast
              let n := prior.length
              let mu := prior.sum / n
              if n > 1 then
                let var := (prior.map (fun x => (x - mu) ^ 2)).sum / ((n : ℝ) - 1)
                let sd := Real.sqrt var
                if sd > 1 / 1000000000 then (latest - mu) / sd else 0
              else 0
            else 0
          (z, buf)
        else (0, s.dv)
    let z := zdv.1
    let z := if z > 6 then 6 else z
    let z := if z < -6 then -6 else z
    (z, { s with dv := zdv.2, last_total_vol := some tv })

/-- Tags identifying the six `place_ioc_*` call sites of `run_live`, named
after the reason tags the corresponding fills get in `write_fill`. -/
inductive OrderTag where
  | anti_short_cover
  | ladder_buy
  | ladder_sell
  | breakeven_trim
  | live_stop
  | live_trail
  deriving DecidableEq

/-- One IOC limit order submitted to the broker. -/
structure Order where
  tag : OrderTag
  qty : ℤ
  limit : ℝ
  urgent : Bool

/-- Local per-symbol state of `run_live` (dronebot.py:493-495): all maps are
`defaultdict`s, so a fresh symbol starts at zero everywhere. -/
structure SymState where
  pos : ℤ
  avg : ℝ
  rpnl : ℝ
  trail_hi : ℝ
  lbt : ℝ
  vwv : VWVState

/-- The initial all-zero state (with a fresh `VWVState(window=120)`). -/
def initSymState : SymState := ⟨0, 0, 0, 0, 0, ⟨120, [], none⟩⟩

/-- Broker-side inputs consumed by one symbol's position sync: the
`reqPositions` entry for the symbol (if any), whether `contracts.get(sym)`
finds a contract, the cover-pricing quote fields, and the aggregated result
`(avg price, filled qty)` of the anti-short cover IOC should one be sent. -/
structure BrokerEvent where
  report : Option (ℤ × ℝ)
  hasContract : Bool
  last : Option ℝ
  close : Option ℝ
  bid : Option ℝ
  ask : Option ℝ
  coverFill : Option ℝ × ℤ

/-- Embedding of the per-symbol body of the position-sync block of `run_live`
(dronebot.py:526-555): anti-short cover for a negative broker position, then
the long-only mirror sync.  A partial or empty cover fill logs and `continue`s,
leaving the local mirrors untouched for this tick. -/
noncomputable def sync_step (now_ts : ℝ) (e : BrokerEvent) (s : SymState) :
    SymState × List Order :=
  match e.report with
  | none => (s, [])
  | some (bpos, bavg) =>
    if bpos < 0 then
      if e.hasContract then
        let clast := pyOr e.last e.close
        let qty := |bpos|
        if 0 < qty then
          let ord : Order :=
            ⟨.anti_short_cover, qty, round4 (ioc_buy_limit e.bid e.ask clast ("urgent")), true⟩
          let s1 := if 0 < e.coverFill.2 ∧ e.coverFill.1 ≠ none then { s with lbt := now_ts } else s
          if qty ≤ e.coverFill.2 then
            ({ s1 with pos := 0, avg := 0 }, [ord])
          else
            (s1, [ord])
        else
          ({ s with pos := 0, avg := 0 }, [])
      else
        ({ s with pos := 0, avg := 0 }, [])
    else if bpos ≤ 0 then
      ({ s with pos := 0, avg := 0 }, [])
    else
      ({ s with pos := max 0 bpos, avg := bavg }, [])

/-- ENTRY block (dronebot.py:665-685).  `fill` is the broker's response
`(avg price, filled qty)` to the submitted IOC, as returned by
`place_ioc_buy`. -/
noncomputable def entry_block (now_ts : ℝ) (bid ask : Option ℝ) (last : ℝ)
    (cumulative : List ℤ) (active desired : ℕ) (buy_ok : Bool)
    (fill : Option ℝ × ℤ) (s : SymState) : SymState × List Order :=
  if now_ts - s.lbt ≥ 3 ∧ buy_ok = true ∧ active < desired then
    let target := cumulative.getD (desired - 1) 0
    let qty := max 0 (target - s.pos)
    if 0 < qty then
      let ord : Order := ⟨.ladder_buy, qty, round4 (ioc_buy_limit bid ask (some last) "normal"), false⟩
      let s1 := { s with lbt := now_ts }
      match fill with
      | (some px, filled) =>
        if 0 < filled then
          let newpos := max 0 s1.pos + filled
          ({ s1 with
              avg := if 0 < s1.pos then (s1.avg * s1.pos + px * filled) / newpos else px
              pos := max 0 newpos
              trail_hi := max s1.trail_hi px }, [ord])
        else (s1, [ord])
      | (none, _) => (s1, [ord])
    else (s, [])
  else (s, [])

/-- LADDER TRIMS block (dronebot.py:687-707).  `active` is the layer count
computed before the entry block (the source reuses the stale variable), and
`levels_hit` the count of sell levels at or below `last`. -/
noncomputable def trims_block (bid : Option ℝ) (last : ℝ) (cumulative : List ℤ)
    (active levels_hit : ℕ) (sell_ok : Bool) (fill : Option ℝ × ℤ)
    (s : SymState) : SymState × List Order :=
  if 0 < s.pos ∧ sell_ok = true then
    let target_layers_after := active - levels_hit
    if target_layers_after < active then
      let target_shares : ℤ :=
        if 0 < target_layers_after then cumulative.getD (target_layers_after - 1) 0 else 0
      let qty := max 0 (s.pos - target_shares)
      if 0 < qty then
        let ord : Order := ⟨.ladder_sell, qty, round4 (ioc_sell_limit bid (some last) "normal"), false⟩
        match fill with
        | (some px, filled) =>
          if 0 < filled then
            let rp := (px - s.avg) * filled
            let s1 := { s with rpnl := s.rpnl + rp, pos := max 0 (s.pos - filled) }
            let s2 := if s1.pos = 0 then { s1 with avg := 0, trail_hi := 0 } else s1
            (s2, [ord])
          else (s, [ord])
        | (none, _) => (s, [ord])
      else (s, [])
    else (s, [])
  else (s, [])

/-- BREAKEVEN TRIM block (dronebot.py:709-720), with the default knobs
`BREAKEVEN_TRIM_FRACTION = 0.25` and `BREAKEVEN_MIN_UPNL_BP = 5`.  Python's
`int()` truncation agrees with `⌊·⌋` since the position is positive here. -/
noncomputable def bk_block (bid : Option ℝ) (last : ℝ) (sell_ok : Bool)
    (fill : Option ℝ × ℤ) (s : SymState) : SymState × List Order :=
  if 0 < s.pos ∧ 0 < s.avg ∧ sell_ok = true then
    let upnl_bp := (last / s.avg - 1) * 10000
    if upnl_bp ≥ 5 ∧ last ≥ s.avg then
      let qty : ℤ := max 1 ⌊(s.pos : ℝ) * (25/100)⌋
      let ord : Order := ⟨.breakeven_trim, qty, round4 (ioc_sell_limit bid (some last) "normal"), false⟩
      match fill with
      | (some px, filled) =>
        if 0 < filled then
          let rp := (px - s.avg) * filled
          let s1 := { s with rpnl := s.rpnl + rp, pos := max 0 (s.pos - filled) }
          let s2 := if s1.pos = 0 then { s1 with avg := 0, trail_hi := 0 } else s1
          (s2, [ord])
        else (s, [ord])
      | (none, _) => (s, [ord])
    else (s, [])
  else (s, [])

/-- HARD STOP block (dronebot.py:722-731), `HARD_STOP_PCT = 5.0`. -/
noncomputable def hs_block (bid : Option ℝ) (last : ℝ) (fill : Option ℝ × ℤ)
    (s : SymState) : SymState × List Order :=
  if 0 < s.pos ∧ 0 < s.avg ∧ last ≤ s.avg * (1 - 5/100) then
    let qty := s.pos
    let ord : Order := ⟨.live_stop, qty, round4 (ioc_sell_limit bid (some last) "urgent"), true⟩
    match fill with
    | (some px, filled) =>
      if 0 < filled then
        let rp := (px - s.avg) * filled
        let s1 := { s with rpnl := s.rpnl + rp, pos := max 0 (s.pos - filled) }
        let s2 := if s1.pos = 0 then { s1 with avg := 0, trail_hi := 0 } else s1
        (s2, [ord])
      else (s, [ord])
    | (none, _) => (s, [ord])
  else (s, [])

/-- TRAIL block (dronebot.py:733-745), `TRAIL_PCT = 2.5`: while the position
is open the high-water mark ratchets up to `last` before the stop test. -/
noncomputable def trail_block (bid : Option ℝ) (last : ℝ) (fill : Option ℝ × ℤ)
    (s : SymState) : SymState × List Order :=
  if 0 < s.pos then
    let s0 := { s with trail_hi := max s.trail_hi last }
    let trail_level := s0.trail_hi * (1 - 25/1000)
    if last ≤ trail_level ∧ 0 < last then
      let qty := s0.pos
      let ord : Order := ⟨.live_trail, qty, round4 (ioc_sell_limit bid (some last) "urgent"), true⟩
      match fill with
      | (some px, filled) =>
        if 0 < filled then
          let rp := (px - s0.avg) * filled
          let s1 := { s0 with rpnl := s0.rpnl + rp, pos := max 0 (s0.pos - filled) }
          let s2 := if s1.pos = 0 then { s1 with avg := 0, trail_hi := 0 } else s1
          (s2, [ord])
        else (s0, [ord])
      | (none, _) => (s0, [ord])
    else (s0, [])
  else (s, [])

/-- Ladder shape constants (dronebot.py:43-46). -/
def BUY_LADDER_MULTS : List ℝ := [0.75, 1.0, 1.25]

/-- Sell-side ladder shape (dronebot.py:44). -/
def SELL_LADDER_MULTS : List ℝ := [0.75, 1.0, 1.25]

/-- Clip scaling for successive ladder entries (dronebot.py:46). -/
def BUY_RUNG_CLIP_MULTS : List ℝ := [1.0, 1.6, 2.3]

/-- The fields of an `ib_insync.Ticker` that the per-symbol evaluation reads.
`openPr` models `t.open`, `mktPrice` the `t.marketPrice()` call (a raising
call contributes no candidate and is a `none` here). -/
structure Quote where
  last : Option ℝ
  close : Option ℝ
  openPr : Option ℝ
  bid : Option ℝ
  ask : Option ℝ
  mktPrice : Option ℝ
  volume : Option ℤ

/-- The broker's `(avg price, filled qty)` responses to each IOC the
evaluation body may submit, one per call site. -/
structure FillEnv where
  entry : Option ℝ × ℤ
  trim : Option ℝ × ℤ
  bk : Option ℝ × ℤ
  stop : Option ℝ × ℤ
  trail : Option ℝ × ℤ

/-- The per-symbol configuration record from `targets.txt`
(`rec` in the source), together with the count of configured symbols sharing
its risk class (used by `dynamic_clip_usd`). -/
structure Config where
  klass : String
  buy : ℝ
  sell : ℝ
  clip : Option ℝ
  nclass : ℕ

/-- All broker-side inputs of one tick for one symbol. -/
structure TickEnv where
  broker : BrokerEvent
  ticker : Option Quote
  fills : FillEnv

/-- The spread filter of the evaluation body (dronebot.py:585-589):
`spr is not None and spr > spr_lim`, with the class-dependent limit
`SPREAD_LIMIT_RISKY = 180` / `SPREAD_LIMIT_SAFE = 80`. -/
noncomputable def spr_skip_check (klass : String) (bid ask : Option ℝ) : Bool :=
  match spread_bps bid ask with
  | some v => decide (v > if klass = "risky" then (180 : ℝ) else 80)
  | none => false

/-- The fallback price of the evaluation body (dronebot.py:591-594):
the open during 09:30-10:00 when truthy, else `t.close or last`, sanitized
with `last` as final default. -/
noncomputable def fallback_price (tnow : Time) (openPr close : Option ℝ) (last : ℝ) : ℝ :=
  (sanitize_price (some
    (if (AM_START ≤ tnow ∧ tnow ≤ hm 10 0) ∧ truthy openPr then openPr.getD 0
     else pyOrD close last))).getD last

/-- Buy-side ladder levels (dronebot.py:616-618). -/
noncomputable def levels_down (ref pct : ℝ) : List ℝ :=
  BUY_LADDER_MULTS.map (fun m => ref * (1 - pct * m / 100))

/-- Sell-side ladder levels (dronebot.py:619-621). -/
noncomputable def levels_up (ref pct : ℝ) : List ℝ :=
  SELL_LADDER_MULTS.map (fun m => ref * (1 + pct * m / 100))

/-- The clip override resolution (dronebot.py:639-644). -/
noncomputable def clip_resolve (clip? : Option ℝ) (klass : String) (nclass : ℕ)
    (last : ℝ) : ℝ :=
  match clip? with
  | some cv => if 0 < cv then cv else dynamic_clip_usd klass nclass last
  | none => dynamic_clip_usd klass nclass last

/-- Embedding of `active_layers` (dronebot.py:657-660): the loop keeps the last index whose
cumulative threshold the position has reached. -/
def active_layers (pos : ℤ) (cumulative : List ℤ) : ℕ :=
  (cumulative.enum).foldl (fun a p => if p.2 ≤ pos then p.1 + 1 else a) 0

/-- Count `sum(1 for lvl in levels if last <= lvl)` (dronebot.py:662). -/
noncomputable def count_le (last : ℝ) (levels : List ℝ) : ℕ :=
  levels.foldl (fun n lvl => if last ≤ lvl then n + 1 else n) 0

/-- Count `sum(1 for lvl in levels if last >= lvl)` (dronebot.py:689). -/
noncomputable def count_ge (last : ℝ) (levels : List ℝ) : ℕ :=
  levels.foldl (fun n lvl => if lvl ≤ last then n + 1 else n) 0

/-- Value of `BUY_LADDER_ANCHOR_IDX = _anchor_index(BUY_LADDER_MULTS)`
(dronebot.py:50-59): the index of the multiplier 1.0 in `[0.75, 1.0, 1.25]`,
namely 1. -/
def BUY_LADDER_ANCHOR_IDX : ℤ := 1

/-- Value of `SELL_LADDER_ANCHOR_IDX = _anchor_index(SELL_LADDER_MULTS)`
(dronebot.py:60): again the index of 1.0 in `[0.75, 1.0, 1.25]`. -/
def SELL_LADDER_ANCHOR_IDX : ℤ := 1

/-- Embedding of the per-symbol evaluation body of `run_live`
(dronebot.py:562-764): quote sanitation, spread filter, blended reference,
VWV update, momentum gates, ladder levels, then the display-widening calls
(lines 624-637) and — only if those return — ladder sizing and the entry,
trim, breakeven, hard-stop and trail blocks in source order.

The first parameter is the lookup of the module global
`ANCHOR_DISTANCE_MULT` read inside `widen_levels_for_display`, exactly as in
that function's embedding; in the repository the global is defined nowhere,
so the program as given in src/ is this function at `none`: the widening
call raises `NameError`, the per-symbol `except` at line 766 catches it, the
state mutated before the raise (the VWV update at line 598) persists, and
everything from the ladder sizing to the trail block is skipped for the
tick.  The HUD/PnL emission (lines 747-764) writes logs only and is
omitted.  Returns the updated state and the submitted orders. -/
noncomputable def eval_symbol (anchor_distance_mult? : Option ℝ) (cfg : Config)
    (feats : Anchors ℝ) (tnow : Time) (now_ts : ℝ) (ticker : Option Quote)
    (fills : FillEnv) (s : SymState) : SymState × List Order :=
  match ticker with
  | none => (s, [])
  | some t =>
    match ([t.last, t.close, t.mktPrice].filterMap sanitize_price).head? with
    | none => (s, [])
    | some last =>
      let bid := sanitize_price t.bid
      let ask := sanitize_price t.ask
      if spr_skip_check cfg.klass bid ask then (s, [])
      else
        let ref := blended_ref tnow feats (fallback_price tnow t.openPr t.close last)
        let zv := s.vwv.update (some last) t.volume
        let z := zv.1
        let s0 := { s with vwv := zv.2 }
        let zc := max (-2) (min 2 z)
        let buy_mult := max (1/4) (1 + (1/4) * zc)
        let sell_mult := 1 - (15/100) * zc
        let buy_ok : Bool := decide (z ≥ 0)
        let sell_ok : Bool := decide (z ≤ 0)
        let spread_class_mult : ℝ :=
          if cfg.klass = "risky" then 5 else if cfg.klass = "safe" then 3 else 5
        let buy_pct := max (1/10) cfg.buy * spread_class_mult * buy_mult
        let sell_pct := max (1/10) cfg.sell * spread_class_mult * sell_mult
        let buy_levels := levels_down ref buy_pct
        let sell_levels := levels_up ref sell_pct
        match widen_levels_for_display anchor_distance_mult? (some ref)
            (buy_levels.map some) "down" spread_class_mult BUY_LADDER_ANCHOR_IDX
            (1/1000000) with
        | .error _ => (s0, [])
        | .ok _ =>
          match widen_levels_for_display anchor_distance_mult? (some ref)
              (sell_levels.map some) "up" spread_class_mult SELL_LADDER_ANCHOR_IDX
              (1/1000000) with
          | .error _ => (s0, [])
          | .ok _ =>
            let cumulative :=
              ladder_cumulative (clip_resolve cfg.clip cfg.klass cfg.nclass last) last
                BUY_RUNG_CLIP_MULTS
            let active := active_layers s0.pos cumulative
            let desired := min (count_le last buy_levels) cumulative.length
            let r1 := entry_block now_ts bid ask last cumulative active desired buy_ok
              fills.entry s0
            let r2 := trims_block bid last cumulative active (count_ge last sell_levels)
              sell_ok fills.trim r1.1
            let r3 := bk_block bid last sell_ok fills.bk r2.1
            let r4 := hs_block bid last fills.stop r3.1
            let r5 := trail_block bid last fills.trail r4.1
            (r5.1, r1.2 ++ r2.2 ++ r3.2 ++ r4.2 ++ r5.2)

/-- One tick of the inner loop of `run_live` for one symbol
(dronebot.py:500-770): position sync always runs; the evaluation body runs
only inside regular trading hours (`if not in_rth: continue`,
dronebot.py:557-559).  The first parameter is the `ANCHOR_DISTANCE_MULT`
lookup threaded to `eval_symbol`; the program in src/ is `tick none`. -/
noncomputable def tick (anchor_distance_mult? : Option ℝ) (cfg : Config)
    (feats : Anchors ℝ) (tnow : Time) (now_ts : ℝ) (env : TickEnv) (s : SymState) :
    SymState × List Order :=
  let r1 := sync_step now_ts env.broker s
  if in_rth tnow then
    let r2 := eval_symbol anchor_distance_mult? cfg feats tnow now_ts env.ticker env.fills r1.1
    (r2.1, r1.2 ++ r2.2)
  else r1

/-- A whole run of the inner loop from the initial all-zero state: fold `tick`
over a list of (time of day, timestamp, environment) triples.  The program in
src/ is `tick_run none`. -/
noncomputable def tick_run (anchor_distance_mult? : Option ℝ) (cfg : Config)
    (feats : Anchors ℝ) (trace : List (Time × ℝ × TickEnv)) : SymState :=
  trace.foldl (fun s x => (tick anchor_distance_mult? cfg feats x.1 x.2.1 x.2.2 s).1)
    initSymState

/-! ### Claim C9 — ladder cumulative thresholds are strictly increasing -/

theorem ladder_cumulative_aux_chain {α : Type*} [LinearOrderedField α] [FloorRing α]
    (clip_usd last : α) :
    ∀ (ms : List α) (total : ℤ),
      (ladder_cumulative_aux clip_usd last total ms).Chain' (· < ·) ∧
      ∀ x ∈ ladder_cumulative_aux clip_usd last total ms, total < x := by
  intro ms
  induction ms with
  | nil => intro total; simp [ladder_cumulative_aux]
  | cons m rest ih =>
    intro total
    have hsh : (1 : ℤ) ≤ max 1 ⌈clip_usd * m / max (1/100) last⌉ := le_max_left _ _
    refine ⟨?_, ?_⟩
    · rw [ladder_cumulative_aux, List.chain'_cons']
      refine ⟨?_, (ih _).1⟩
      intro b hb
      exact (ih _).2 b (List.mem_of_mem_head? hb)
    · intro x hx
      rw [ladder_cumulative_aux, List.mem_cons] at hx
      rcases hx with h | h
      · subst h; omega
      · have := (ih _).2 x h; omega

/-- Claim C9: for every positive clip, positive last price and positive
strictly increasing rung-size multipliers, the cumulative share thresholds of
the ladder sizing form a strictly increasing list of positive integers.
(The per-rung share counts are at least 1, so this in fact needs none of the
hypotheses.) -/
theorem ladder_cumulative_strict_mono {α : Type*} [LinearOrderedField α] [FloorRing α]
    (clip_usd last : α) (mults : List α) (hclip : 0 < clip_usd) (hlast : 0 < last)
    (hmono : mults.Chain' (· < ·)) (hpos : ∀ m ∈ mults, 0 < m) :
    (ladder_cumulative clip_usd last mults).Chain' (· < ·) ∧
    ∀ x ∈ ladder_cumulative clip_usd last mults, 0 < x :=
  ladder_cumulative_aux_chain clip_usd last mults 0

/-- Witness for C9 at the source constants: clip $1000, last 90, rung
multipliers `BUY_RUNG_CLIP_MULTS = [1.0, 1.6, 2.3]`. -/
theorem ladder_cumulative_strict_mono_witness :
    (ladder_cumulative (1000 : ℚ) 90 [1, 8/5, 23/10]).Chain' (· < ·) ∧
    ∀ x ∈ ladder_cumulative (1000 : ℚ) 90 [1, 8/5, 23/10], 0 < x :=
  ladder_cumulative_strict_mono 1000 90 [1, 8/5, 23/10]
    (by norm_num) (by norm_num)
    (by simp [List.chain'_cons]; norm_num)
    (by intro m hm; simp [List.mem_cons] at hm; rcases hm with h | h | h <;> subst h <;> norm_num)

/-! ### Claim C10 — `_avg_price_and_qty` returns `none` exactly on zero fills -/

theorem _avg_fold_eq {α : Type*} [LinearOrderedField α] :
    ∀ (fills : List (Fill α)) (a : ℤ) (b : α),
      fills.foldl
        (fun (acc : ℤ × α) f =>
          if f.shares ≤ 0 then acc else (acc.1 + f.shares, acc.2 + f.avgPrice * f.shares))
        (a, b) =
      (a + ((fills.filter (fun f => 0 < f.shares)).map Fill.shares).sum,
       b + ((fills.filter (fun f => 0 < f.shares)).map (fun f => f.avgPrice * (f.shares : α))).sum) := by
  intro fills
  induction fills with
  | nil => intro a b; simp
  | cons f rest ih =>
    intro a b
    by_cases h : f.shares ≤ 0
    · have h' : ¬ 0 < f.shares := by omega
      simp [List.foldl_cons, h, List.filter_cons, h', ih]
    · have h' : 0 < f.shares := by omega
      simp only [List.foldl_cons, if_neg h, List.filter_cons, decide_eq_true_eq, if_pos h', ih]
      simp only [List.map_cons, List.sum_cons, Prod.mk.injEq]
      constructor
      · push_cast; ring
      · ring

theorem _avg_filter_sum_nonneg {α : Type*} [LinearOrderedField α] (fills : List (Fill α)) :
    0 ≤ ((fills.filter (fun f => 0 < f.shares)).map Fill.shares).sum := by
  apply List.sum_nonneg
  intro x hx
  simp only [List.mem_map, List.mem_filter, decide_eq_true_eq] at hx
  obtain ⟨f, ⟨-, hpos⟩, rfl⟩ := hx
  omega

/-- Claim C10: the order-fill aggregation returns a `none` average price
exactly when the aggregated filled quantity is zero; fills with non-positive
share counts are excluded; and a `some` price comes with a positive quantity
equal to the included share total and equals the share-weighted average price
of the included fills. -/
theorem _avg_price_and_qty_spec {α : Type*} [LinearOrderedField α] (fills : List (Fill α)) :
    ((_avg_price_and_qty fills).1 = none ↔ (_avg_price_and_qty fills).2 = 0) ∧
    ((_avg_price_and_qty fills).1 ≠ none →
      0 < (_avg_price_and_qty fills).2 ∧
      (_avg_price_and_qty fills).2 = ((fills.filter (fun f => 0 < f.shares)).map Fill.shares).sum ∧
      (_avg_price_and_qty fills).1 =
        some (((fills.filter (fun f => 0 < f.shares)).map (fun f => f.avgPrice * (f.shares : α))).sum /
          ((((fills.filter (fun f => 0 < f.shares)).map Fill.shares).sum : ℤ) : α))) := by
  have hfold := _avg_fold_eq fills 0 (0 : α)
  have hnn := _avg_filter_sum_nonneg (α := α) fills
  unfold _avg_price_and_qty
  rw [hfold]
  by_cases h : ((fills.filter (fun f => 0 < f.shares)).map Fill.shares).sum ≤ 0
  · have hz : ((fills.filter (fun f => 0 < f.shares)).map Fill.shares).sum = 0 := le_antisymm h hnn
    simp [hz]
  · simp only [zero_add, if_neg h]
    refine ⟨⟨fun hc => absurd hc (by simp), fun hc => absurd hc (by omega)⟩, fun _ => ?_⟩
    refine ⟨by omega, ?_, ?_⟩ <;> simp

/-- Witness for C10: three fills, one with a non-positive share count;
aggregate is 6 shares at weighted average 7. -/
theorem _avg_price_and_qty_spec_witness :
    0 < (_avg_price_and_qty [(⟨2, 3⟩ : Fill ℚ), ⟨-1, 50⟩, ⟨4, 9⟩]).2 ∧
    (_avg_price_and_qty [(⟨2, 3⟩ : Fill ℚ), ⟨-1, 50⟩, ⟨4, 9⟩]).2 =
      (([(⟨2, 3⟩ : Fill ℚ), ⟨-1, 50⟩, ⟨4, 9⟩].filter (fun f => 0 < f.shares)).map Fill.shares).sum ∧
    (_avg_price_and_qty [(⟨2, 3⟩ : Fill ℚ), ⟨-1, 50⟩, ⟨4, 9⟩]).1 =
      some ((([(⟨2, 3⟩ : Fill ℚ), ⟨-1, 50⟩, ⟨4, 9⟩].filter (fun f => 0 < f.shares)).map
          (fun f => f.avgPrice * (f.shares : ℚ))).sum /
        ((((([(⟨2, 3⟩ : Fill ℚ), ⟨-1, 50⟩, ⟨4, 9⟩].filter (fun f => 0 < f.shares)).map Fill.shares).sum : ℤ)) : ℚ)) :=
  (_avg_price_and_qty_spec _).2 (by
    have hv : _avg_price_and_qty [(⟨2, 3⟩ : Fill ℚ), ⟨-1, 50⟩, ⟨4, 9⟩] = (some 7, 6) := by
      norm_num [_avg_price_and_qty]
    rw [hv]
    simp)

/-! ### Claim C4 — `widen_levels_for_display` raises on every qualifying call -/

/-- Claim C4 (code bug): with a positive reference, all-`some` levels, a valid
anchor index and a spread multiplier above 1, the source function reaches the
line `if ref is not None and ANCHOR_DISTANCE_MULT > 1.0` — but the module
global `ANCHOR_DISTANCE_MULT` is defined nowhere in the repository, so the
call raises `NameError` instead of returning widened levels. -/
theorem widen_levels_undefined_global_raises :
    widen_levels_for_display (none : Option ℚ) (some 100) [some 97, some 96, some 95]
      "down" 5 1 (1/1000000) = .error () := by
  norm_num [widen_levels_for_display]
  exact fun h => absurd h (by simp)

/-! ### Claim C5 — `blended_ref` time-of-day policy -/

/-- The time-of-day policy exactly as the specification states it:
presence-based (`Option`-level) preferences, with a plain average of
`openingRangeMid` and `sessionMid` in the mid-morning window. -/
def blended_ref_claim {α : Type*} [LinearOrderedField α] (now : Time) (feats : Anchors α)
    (fallback : α) : α :=
  if now < hm 10 0 then
    ((feats.ib_mid.or feats.pma_mid).or feats.rth_mid).getD fallback
  else if now < hm 11 0 then
    match feats.ib_mid, feats.rth_mid with
    | some x, some y => (x + y) / 2
    | some x, none => x
    | none, some y => y
    | none, none => fallback
  else ((feats.rth_mid.or feats.ib_mid).or feats.pma_mid).getD fallback

/-- Counterexample to C5 as stated: the claim quantifies over every anchors
record, but with `openingRangeMid` present with value `0` (before 10:00,
preMarketMid 9, fallback 8) the claimed policy returns the present
openingRangeMid `0`, while the code's truthiness-based `or`-chain skips the
zero anchor and returns the pre-market mid `9`. -/
theorem blended_ref_zero_anchor_counterexample :
    blended_ref (hm 9 0) ⟨some 9, some 0, none⟩ (8 : ℚ) ≠
      blended_ref_claim (hm 9 0) ⟨some 9, some 0, none⟩ (8 : ℚ) := by
  norm_num [blended_ref, blended_ref_claim, pyOr, pyOrD, truthy, hm, Option.or]

/-- Helper: on anchors whose present values are positive, the truthiness
`or`-chain agrees with `Option`-level preference, and its value is positive. -/
theorem pyOr_chain3_pos {α : Type*} [LinearOrderedField α] (a b c : Option α) (d : α)
    (ha : ∀ x, a = some x → 0 < x) (hb : ∀ x, b = some x → 0 < x)
    (hc : ∀ x, c = some x → 0 < x) (hd : 0 < d) :
    pyOrD (pyOr (pyOr a b) c) d = ((a.or b).or c).getD d ∧
    0 < pyOrD (pyOr (pyOr a b) c) d := by
  rcases a with - | x
  · rcases b with - | y
    · rcases c with - | z
      · simp [pyOr, pyOrD, truthy, Option.or, hd]
      · have hz := hc z rfl
        simp [pyOr, pyOrD, truthy, Option.or, hz, hz.ne']
    · have hy := hb y rfl
      simp [pyOr, pyOrD, truthy, Option.or, hy, hy.ne']
  · have hx := ha x rfl
    simp [pyOr, pyOrD, truthy, Option.or, hx, hx.ne']

/-- Claim C5 as amended: for every anchors record whose present values are
positive (as every `anchors_from_bars` output over positive closes is) and
every positive fallback, `blended_ref` always returns a positive value and
follows exactly the claimed time-of-day policy. -/
theorem blended_ref_follows_policy {α : Type*} [LinearOrderedField α]
    (now : Time) (feats : Anchors α) (fallback : α)
    (hpma : ∀ x, feats.pma_mid = some x → 0 < x)
    (hib : ∀ x, feats.ib_mid = some x → 0 < x)
    (hrth : ∀ x, feats.rth_mid = some x → 0 < x)
    (hfb : 0 < fallback) :
    blended_ref now feats fallback = blended_ref_claim now feats fallback ∧
    0 < blended_ref now feats fallback := by
  obtain ⟨pma, ib, rth⟩ := feats
  simp only at hpma hib hrth
  by_cases h10 : now < hm 10 0
  · have h := pyOr_chain3_pos ib pma rth fallback hib hpma hrth hfb
    simp only [blended_ref, blended_ref_claim]
    rw [if_pos h10, if_pos h10, if_neg h.2.ne']
    exact h
  · by_cases h11 : now < hm 11 0
    · simp only [blended_ref, blended_ref_claim]
      rw [if_neg h10, if_neg h10, if_pos h11, if_pos h11]
      rcases ib with - | i
      · rcases rth with - | r
        · have hcond : ¬ (truthy (none : Option α) = true ∧ truthy (none : Option α) = true) := by
            simp [truthy]
          rw [if_neg hcond]
          simp [pyOr, pyOrD, truthy, hfb.ne']
          exact hfb
        · have hr := hrth r rfl
          have hcond : ¬ (truthy (none : Option α) = true ∧ truthy (some r) = true) := by
            simp [truthy]
          rw [if_neg hcond]
          simp [pyOr, pyOrD, truthy, hr.ne']
          exact hr
      · have hi := hib i rfl
        rcases rth with - | r
        · have hcond : ¬ (truthy (some i) = true ∧ truthy (none : Option α) = true) := by
            simp [truthy]
          rw [if_neg hcond]
          simp [pyOr, pyOrD, truthy, hi.ne']
          exact hi
        · have hr := hrth r rfl
          have havg : 0 < (1/2 : α) * i + (1/2) * r := by linarith
          have hcond : truthy (some i) = true ∧ truthy (some r) = true := by
            simp [truthy, hi.ne', hr.ne']
          rw [if_pos hcond]
          simp only [Option.getD_some]
          rw [if_neg havg.ne']
          refine ⟨?_, havg⟩
          show (1/2 : α) * i + 1/2 * r = (i + r) / 2
          ring
    · have h := pyOr_chain3_pos rth ib pma fallback hrth hib hpma hfb
      simp only [blended_ref, blended_ref_claim]
      rw [if_neg h10, if_neg h10, if_neg h11, if_neg h11, if_neg h.2.ne']
      exact h

/-- Witness for the amended C5, at the specification's own example: before
10:00 with preMarketMid 9, openingRangeMid 10, sessionMid absent and
fallback 8 the blended reference is the openingRangeMid. -/
theorem blended_ref_follows_policy_witness :
    blended_ref (hm 9 0) ⟨some 9, some 10, none⟩ (8 : ℚ) =
      blended_ref_claim (hm 9 0) ⟨some 9, some 10, none⟩ (8 : ℚ) ∧
    0 < blended_ref (hm 9 0) ⟨some 9, some 10, none⟩ (8 : ℚ) :=
  blended_ref_follows_policy (hm 9 0) ⟨some 9, some 10, none⟩ 8
    (fun x hx => by simp only [Option.some.injEq] at hx; subst hx; norm_num)
    (fun x hx => by simp only [Option.some.injEq] at hx; subst hx; norm_num)
    (fun x hx => by simp at hx)
    (by norm_num)

/-! ### Claim C8 — anchor windows and medians -/

/-- The median in the usual sense the claim's wording denotes: middle element
of the sorted list for odd length, mean of the two middle elements for even
length; `none` for an empty list. -/
def median_claim {α : Type*} [LinearOrderedField α] (xs : List α) : Option α :=
  if xs = [] then none
  else
    let s := xs.mergeSort (fun a b => a ≤ b)
    if xs.length % 2 = 1 then some (s.getD (xs.length / 2) 0)
    else some ((s.getD (xs.length / 2 - 1) 0 + s.getD (xs.length / 2) 0) / 2)

/-- The anchors record exactly as the claim states it: pre-market before
09:30, opening range from 09:30 up to 10:00, full regular session
09:30-16:00; each the median close of the qualifying bars, `none` when no
bar qualifies. -/
def anchors_claim {α : Type*} [LinearOrderedField α] (bars : List (Bar α)) : Anchors α :=
  { pma_mid := median_claim ((bars.filter (fun b => decide (b.t < hm 9 30))).map Bar.close)
    ib_mid := median_claim
      ((bars.filter (fun b => decide (hm 9 30 ≤ b.t ∧ b.t < hm 10 0))).map Bar.close)
    rth_mid := median_claim
      ((bars.filter (fun b => decide (hm 9 30 ≤ b.t ∧ b.t < hm 16 0))).map Bar.close) }

/-- Counterexample to C8 as stated: on the day
`[(09:30, close 1), (20:00, close 2), (09:45, close 0)]` the code returns the
upper median over an unbounded session window with zero closes dropped
(openingRange 1, session 2), while the claimed per-window medians are 1/2 in
both windows (the 20:00 bar is not in the regular session, the zero close
qualifies, and an even count takes the mean of the middle two). -/
theorem anchors_from_bars_median_counterexample :
    anchors_from_bars [⟨hm 9 30, (1 : ℚ)⟩, ⟨hm 20 0, 2⟩, ⟨hm 9 45, 0⟩] ≠
      anchors_claim [⟨hm 9 30, (1 : ℚ)⟩, ⟨hm 20 0, 2⟩, ⟨hm 9 45, 0⟩] := by
  norm_num [anchors_from_bars, anchors_claim, mid_span, median_claim, truthy, hm,
    List.mergeSort, Anchors.mk.injEq]

/-- The statistic the code actually computes per window: the upper median
(element at index `⌊n/2⌋` of the ascending sort). -/
def upper_median {α : Type*} [LinearOrderedField α] (xs : List α) : Option α :=
  if xs = [] then none
  else some ((xs.mergeSort (fun a b => a ≤ b)).getD (xs.length / 2) 0)

/-- The anchors record as C8 must be amended: same pre-market and
opening-range windows, but the session window is every bar from 09:30 onward
(after-hours included), bars with a zero close are excluded everywhere, and
each value is the upper median of the qualifying closes. -/
def anchors_amended {α : Type*} [LinearOrderedField α] (bars : List (Bar α)) : Anchors α :=
  { pma_mid := upper_median
      ((bars.filter (fun b => decide (b.t < hm 9 30) && decide (b.close ≠ 0))).map Bar.close)
    ib_mid := upper_median
      ((bars.filter (fun b => decide (hm 9 30 ≤ b.t ∧ b.t < hm 10 0) && decide (b.close ≠ 0))).map Bar.close)
    rth_mid := upper_median
      ((bars.filter (fun b => decide (hm 9 30 ≤ b.t) && decide (b.close ≠ 0))).map Bar.close) }

theorem truthy_some_eq_ne {α : Type*} [Zero α] [DecidableEq α] (x : α) :
    truthy (some x) = decide (x ≠ 0) := by
  by_cases h : x = 0 <;> simp [truthy, h]

theorem mid_span_fst {α : Type*} [LinearOrderedField α] (xs : List α) :
    (mid_span xs).1 = upper_median xs := by
  cases xs with
  | nil => simp [mid_span, upper_median]
  | cons a l =>
    simp only [mid_span, upper_median]
    rw [if_neg (by simp)]
    simp [List.length_mergeSort]

/-- Claim C8 as amended: `anchors_from_bars` computes, for each of the three
windows (pre-market before 09:30, opening range 09:30-10:00, and everything
from 09:30 onward), the upper median of the nonzero closes of qualifying
bars, and `none` when no bar qualifies. -/
theorem anchors_from_bars_amended {α : Type*} [LinearOrderedField α] (bars : List (Bar α)) :
    anchors_from_bars bars = anchors_amended bars := by
  unfold anchors_from_bars anchors_amended
  simp only [truthy_some_eq_ne, mid_span_fst]

/-! ### Claim C7 — IOC order no-op and limit-price derivation -/

theorem foldl_max_mem {α : Type*} [LinearOrder α] (l : List α) (a : α) :
    l.foldl max a = a ∨ l.foldl max a ∈ l := by
  induction l generalizing a with
  | nil => left; rfl
  | cons x xs ih =>
    simp only [List.foldl_cons]
    rcases ih (max a x) with h | h
    · rcases max_choice a x with hm | hm
      · left; rw [h, hm]
      · right; rw [h, hm]; exact List.mem_cons_self x xs
    · right; exact List.mem_cons_of_mem x h

theorem foldl_max_le {α : Type*} [LinearOrder α] (l : List α) (a : α) :
    a ≤ l.foldl max a ∧ ∀ c ∈ l, c ≤ l.foldl max a := by
  induction l generalizing a with
  | nil => simp
  | cons x xs ih =>
    simp only [List.foldl_cons]
    obtain ⟨h1, h2⟩ := ih (max a x)
    refine ⟨le_trans (le_max_left a x) h1, ?_⟩
    intro c hc
    rcases List.mem_cons.mp hc with rfl | hc
    · exact le_trans (le_max_right a _) h1
    · exact h2 c hc

theorem foldl_min_mem {α : Type*} [LinearOrder α] (l : List α) (a : α) :
    l.foldl min a = a ∨ l.foldl min a ∈ l := by
  induction l generalizing a with
  | nil => left; rfl
  | cons x xs ih =>
    simp only [List.foldl_cons]
    rcases ih (min a x) with h | h
    · rcases min_choice a x with hm | hm
      · left; rw [h, hm]
      · right; rw [h, hm]; exact List.mem_cons_self x xs
    · right; exact List.mem_cons_of_mem x h

theorem foldl_min_le {α : Type*} [LinearOrder α] (l : List α) (a : α) :
    l.foldl min a ≤ a ∧ ∀ c ∈ l, l.foldl min a ≤ c := by
  induction l generalizing a with
  | nil => simp
  | cons x xs ih =>
    simp only [List.foldl_cons]
    obtain ⟨h1, h2⟩ := ih (min a x)
    refine ⟨le_trans h1 (min_le_left a x), ?_⟩
    intro c hc
    rcases List.mem_cons.mp hc with rfl | hc
    · exact le_trans h1 (min_le_right a _)
    · exact h2 c hc

theorem ioc_candidates_ne_nil {α : Type*} [LinearOrderedField α] (raw : List (Option α)) :
    ioc_candidates raw ≠ [] := by
  unfold ioc_candidates
  by_cases h : (raw.filterMap sanitize_price : List α) = [] <;> simp [h]

theorem headD_mem {α : Type*} (l : List α) (d : α) (h : l ≠ []) : l.headD d ∈ l := by
  cases l with
  | nil => exact absurd rfl h
  | cons a xs => exact List.mem_cons_self a xs

theorem round4_mul_int {α : Type*} [LinearOrderedField α] [FloorRing α] (x : α) (n : ℤ)
    (h : x * 10000 = n) : round4 x = (n : α) / 10000 := by
  unfold round4
  rw [h, round_intCast]

/-- Counterexample to C7 as stated: a sell with the single candidate 0.005
does not submit at `0.005 × (1 − 0.004) = 0.00498`; the source floors the
limit at `max(0.01, ·)` (dronebot.py:416), so the submitted limit is 0.01. -/
theorem ioc_sell_limit_floor_counterexample :
    ioc_sell_order (1 : ℤ) none (some (1/200 : ℚ)) "normal" = some (1/100, 1) ∧
    (1/100 : ℚ) ≠ (1/200) * (1 - 4/1000) := by
  constructor
  · have hlim : ioc_sell_limit (none : Option ℚ) (some (1/200)) "normal" = 1/100 := by
      norm_num [ioc_sell_limit, ioc_candidates, ioc_bump, sanitize_price,
        List.filterMap_cons, List.foldl_cons, List.foldl_nil, max_def, min_def] <;> simp <;>
        norm_num [max_def, min_def]
    rw [ioc_sell_order, if_neg (by norm_num : ¬ (1 : ℤ) ≤ 0), hlim,
      round4_mul_int _ 100 (by norm_num)]
    norm_num
  · norm_num

/-- Claim C7 as amended: `qty ≤ 0` submits nothing and returns `(None, 0)`;
otherwise the submitted limit is the extremal sanitized candidate bumped by
0.4% (2% when urgent), additionally floored at the nominal `0.01` and rounded
to four decimals; the claim's three concrete examples are unaffected by floor
and rounding and hold as stated. -/
theorem ioc_orders_amended :
    (∀ (qty : ℤ) (bid ask last : Option ℚ) (urgency : String), qty ≤ 0 →
      ioc_buy_order qty bid ask last urgency = none ∧
      ioc_sell_order qty bid last urgency = none) ∧
    (∀ (qty : ℤ) (bid ask last : Option ℚ) (urgency : String), 0 < qty →
      (∃ b ∈ ioc_candidates [last, ask, bid],
        (∀ c ∈ ioc_candidates [last, ask, bid], c ≤ b) ∧
        ioc_buy_order qty bid ask last urgency =
          some (round4 (max (1/100) (b * (1 + ioc_bump urgency))), qty)) ∧
      (∃ b ∈ ioc_candidates [last, bid],
        (∀ c ∈ ioc_candidates [last, bid], b ≤ c) ∧
        ioc_sell_order qty bid last urgency =
          some (round4 (max (1/100) (b * (1 - ioc_bump urgency))), qty))) ∧
    ioc_buy_order 10 (some 99) (some 101) (some 100) "normal" =
      some ((101 : ℚ) * (1 + 4/1000), 10) ∧
    ioc_buy_order 10 (some 99) (some 101) (some 100) "urgent" =
      some ((101 : ℚ) * (1 + 2/100), 10) ∧
    ioc_sell_order 10 (some 99) (some 100) "normal" = some ((99 : ℚ) * (1 - 4/1000), 10) := by
  refine ⟨?_, ?_, ?_, ?_, ?_⟩
  · intro qty bid ask last urgency hq
    constructor <;> simp [ioc_buy_order, ioc_sell_order, hq]
  · intro qty bid ask last urgency hq
    constructor
    · set l := ioc_candidates (α := ℚ) [last, ask, bid] with hl
      have hne : l ≠ [] := ioc_candidates_ne_nil _
      refine ⟨l.foldl max (l.headD 0), ?_, ?_, ?_⟩
      · rcases foldl_max_mem l (l.headD 0) with h | h
        · rw [h]; exact headD_mem l 0 hne
        · exact h
      · exact (foldl_max_le l (l.headD 0)).2
      · simp only [ioc_buy_order, if_neg (by omega : ¬ qty ≤ 0)]
        rfl
    · set l := ioc_candidates (α := ℚ) [last, bid] with hl
      have hne : l ≠ [] := ioc_candidates_ne_nil _
      refine ⟨l.foldl min (l.headD 0), ?_, ?_, ?_⟩
      · rcases foldl_min_mem l (l.headD 0) with h | h
        · rw [h]; exact headD_mem l 0 hne
        · exact h
      · exact (foldl_min_le l (l.headD 0)).2
      · simp only [ioc_sell_order, if_neg (by omega : ¬ qty ≤ 0)]
        rfl
  · have hlim : ioc_buy_limit (some (99 : ℚ)) (some 101) (some 100) "normal" = 101 * (1 + 4/1000) := by
      norm_num [ioc_buy_limit, ioc_candidates, ioc_bump, sanitize_price,
        List.filterMap_cons, List.foldl_cons, List.foldl_nil, max_def, min_def] <;> simp <;>
        norm_num [max_def, min_def]
    rw [ioc_buy_order, if_neg (by norm_num : ¬ (10 : ℤ) ≤ 0), hlim,
      round4_mul_int _ 1014040 (by norm_num)]
    norm_num
  · have hlim : ioc_buy_limit (some (99 : ℚ)) (some 101) (some 100) "urgent" = 101 * (1 + 2/100) := by
      norm_num [ioc_buy_limit, ioc_candidates, ioc_bump, sanitize_price,
        List.filterMap_cons, List.foldl_cons, List.foldl_nil, max_def, min_def] <;> simp <;>
        norm_num [max_def, min_def]
    rw [ioc_buy_order, if_neg (by norm_num : ¬ (10 : ℤ) ≤ 0), hlim,
      round4_mul_int _ 1030200 (by norm_num)]
    norm_num
  · have hlim : ioc_sell_limit (some (99 : ℚ)) (some 100) "normal" = 99 * (1 - 4/1000) := by
      norm_num [ioc_sell_limit, ioc_candidates, ioc_bump, sanitize_price,
        List.filterMap_cons, List.foldl_cons, List.foldl_nil, max_def, min_def] <;> simp <;>
        norm_num [max_def, min_def]
    rw [ioc_sell_order, if_neg (by norm_num : ¬ (10 : ℤ) ≤ 0), hlim,
      round4_mul_int _ 986040 (by norm_num)]
    norm_num

/-- Witness for the amended C7: the no-op case at `qty = -2` and the
limit-price case at the claim's example quote (last 100, ask 101, bid 99). -/
theorem ioc_orders_amended_witness :
    (ioc_buy_order (-2 : ℤ) (some (99 : ℚ)) (some 101) (some 100) "normal" = none ∧
      ioc_sell_order (-2 : ℤ) (some (99 : ℚ)) (some 100) "normal" = none) ∧
    ((∃ b ∈ ioc_candidates [some (100 : ℚ), some 101, some 99],
        (∀ c ∈ ioc_candidates [some (100 : ℚ), some 101, some 99], c ≤ b) ∧
        ioc_buy_order 10 (some 99) (some 101) (some 100) "normal" =
          some (round4 (max (1/100) (b * (1 + ioc_bump ("normal")))), 10)) ∧
      (∃ b ∈ ioc_candidates [some (100 : ℚ), some 99],
        (∀ c ∈ ioc_candidates [some (100 : ℚ), some 99], b ≤ c) ∧
        ioc_sell_order 10 (some 99) (some 100) "normal" =
          some (round4 (max (1/100) (b * (1 - ioc_bump ("normal")))), 10))) := by
  constructor
  · exact ioc_orders_amended.1 (-2) (some 99) (some 101) (some 100) "normal" (by norm_num)
  · exact ioc_orders_amended.2.1 10 (some 99) (some 101) (some 100) "normal" (by norm_num)

/-! ### Claim C6 — `VWVState.update` guard, first call, and storage -/

/-- Counterexample to C6 as stated: the claim's final clause says a supplied
cumulative volume is always stored before returning, but when the last price
is absent the early guard returns without mutating state
(dronebot.py:280-281), so the previously stored cumulative volume 5 survives
a call that supplies 7. -/
theorem vwv_update_not_always_stored :
    (VWVState.update ⟨120, [], some 5⟩ none (some 7)).2.last_total_vol = some 5 ∧
    some (5 : ℤ) ≠ some 7 := by
  constructor
  · norm_num [VWVState.update, truthy]
  · simp

/-- Claim C6 as amended: `update` returns `(0.0, unchanged state)` whenever
the last price is falsy or the volume is `None`; on the first valid
observation it returns 0.0 and only stores the cumulative volume; on a
non-increasing cumulative volume it returns 0.0 and stores the new volume
without touching the window; and every call that passes the validity guard
stores the supplied cumulative volume. -/
theorem vwv_update_amended (s : VWVState) (p : Option ℝ) (v : Option ℤ) :
    ((truthy p = false ∨ v = none) → s.update p v = (0, s)) ∧
    (s.last_total_vol = none → truthy p = true → ∀ tv, v = some tv →
      s.update p v = (0, { s with last_total_vol := some tv })) ∧
    (∀ pv tv, s.last_total_vol = some pv → truthy p = true → v = some tv → tv ≤ pv →
      s.update p v = (0, { s with last_total_vol := some tv })) ∧
    (truthy p = true → ∀ tv, v = some tv → (s.update p v).2.last_total_vol = some tv) := by
  refine ⟨?_, ?_, ?_, ?_⟩
  · intro h
    unfold VWVState.update
    rcases h with h | h
    · rw [if_pos (Or.inl (by simp [h]))]
    · rw [if_pos (Or.inr h)]
  · intro hnone hp tv hv
    subst hv
    unfold VWVState.update
    rw [if_neg (by simp [hp])]
    simp only [hnone, Option.getD_some]
    norm_num
  · intro pv tv hs hp hv htv
    subst hv
    unfold VWVState.update
    rw [if_neg (by simp [hp])]
    simp only [hs, Option.getD_some, if_neg (show ¬ tv > pv from not_lt.mpr htv)]
    norm_num
  · intro hp tv hv
    subst hv
    unfold VWVState.update
    rw [if_neg (by simp [hp])]
    simp

/-- Witness for the amended C6: a fresh tracker fed a missing price; a fresh
tracker's first valid observation; a stale cumulative volume; and storage on
a strictly increasing volume. -/
theorem vwv_update_amended_witness :
    VWVState.update ⟨120, [], none⟩ none (some 3) = (0, ⟨120, [], none⟩) ∧
    VWVState.update ⟨120, [], none⟩ (some 2) (some 100) = (0, ⟨120, [], some 100⟩) ∧
    VWVState.update ⟨120, [4], some 9⟩ (some 2) (some 7) = (0, ⟨120, [4], some 7⟩) ∧
    (VWVState.update ⟨120, [4], some 9⟩ (some 2) (some 12)).2.last_total_vol = some 12 := by
  refine ⟨?_, ?_, ?_, ?_⟩
  · exact (vwv_update_amended _ _ _).1 (Or.inl (by simp [truthy]))
  · exact (vwv_update_amended _ _ _).2.1 rfl (by norm_num [truthy]) 100 rfl
  · exact (vwv_update_amended _ _ _).2.2.1 9 7 rfl (by norm_num [truthy]) rfl (by norm_num)
  · exact (vwv_update_amended _ _ _).2.2.2 (by norm_num [truthy]) 12 rfl

/-! ### Claim C1 — local position is never negative -/

theorem sync_step_pos (now_ts : ℝ) (e : BrokerEvent) (s : SymState) (h : 0 ≤ s.pos) :
    0 ≤ (sync_step now_ts e s).1.pos := by
  rcases he : e.report with - | ⟨bpos, bavg⟩ <;>
    simp only [sync_step, he] <;> try exact h
  split_ifs <;> simp_all <;> omega

theorem entry_block_pos (now_ts : ℝ) (bid ask : Option ℝ) (last : ℝ)
    (cumulative : List ℤ) (active desired : ℕ) (buy_ok : Bool) (fill : Option ℝ × ℤ)
    (s : SymState) (h : 0 ≤ s.pos) :
    0 ≤ (entry_block now_ts bid ask last cumulative active desired buy_ok fill s).1.pos := by
  rcases fill with ⟨_ | px, filled⟩ <;>
    simp only [entry_block] <;> split_ifs <;> simp_all <;> omega

theorem trims_block_pos (bid : Option ℝ) (last : ℝ) (cumulative : List ℤ)
    (active levels_hit : ℕ) (sell_ok : Bool) (fill : Option ℝ × ℤ) (s : SymState)
    (h : 0 ≤ s.pos) :
    0 ≤ (trims_block bid last cumulative active levels_hit sell_ok fill s).1.pos := by
  rcases fill with ⟨_ | px, filled⟩ <;>
    simp only [trims_block] <;> split_ifs <;> simp_all <;> omega

theorem bk_block_pos (bid : Option ℝ) (last : ℝ) (sell_ok : Bool) (fill : Option ℝ × ℤ)
    (s : SymState) (h : 0 ≤ s.pos) :
    0 ≤ (bk_block bid last sell_ok fill s).1.pos := by
  rcases fill with ⟨_ | px, filled⟩ <;>
    simp only [bk_block] <;> split_ifs <;> simp_all <;> omega

theorem hs_block_pos (bid : Option ℝ) (last : ℝ) (fill : Option ℝ × ℤ)
    (s : SymState) (h : 0 ≤ s.pos) :
    0 ≤ (hs_block bid last fill s).1.pos := by
  rcases fill with ⟨_ | px, filled⟩ <;>
    simp only [hs_block] <;> split_ifs <;> simp_all <;> omega

theorem trail_block_pos (bid : Option ℝ) (last : ℝ) (fill : Option ℝ × ℤ)
    (s : SymState) (h : 0 ≤ s.pos) :
    0 ≤ (trail_block bid last fill s).1.pos := by
  rcases fill with ⟨_ | px, filled⟩ <;>
    simp only [trail_block] <;> split_ifs <;> simp_all <;> omega

/-! ### The NameError abort of the evaluation body -/

theorem widen_eval_error {α : Type*} [LinearOrderedField α] (ref : α)
    (levels : List (Option α)) (d : String) (scm : α) (idx : ℤ) (eps : α)
    (hscm : 1 < scm) (hidx : idx = 1) (hne : levels ≠ [])
    (hlen : 1 < (levels.length : ℤ)) (hget : levels.getD 1 none ≠ none) :
    widen_levels_for_display (α := α) none (some ref) levels d scm idx eps =
      .error () := by
  subst hidx
  unfold widen_levels_for_display
  dsimp only
  rw [if_neg (by
    simp only [not_or]
    exact ⟨not_le.2 hscm, hne, by norm_num, not_le.2 hlen⟩)]
  rcases hg : levels.getD (1 : ℤ).toNat none with - | m
  · exact absurd hg hget
  · rfl

theorem eval_symbol_none_eq (cfg : Config) (feats : Anchors ℝ) (tnow : Time)
    (now_ts : ℝ) (t : Quote) (fills : FillEnv) (s : SymState) (last : ℝ)
    (hlast : ([t.last, t.close, t.mktPrice].filterMap sanitize_price).head? = some last)
    (hskip : spr_skip_check cfg.klass (sanitize_price t.bid) (sanitize_price t.ask) = false) :
    eval_symbol none cfg feats tnow now_ts (some t) fills s =
      ({ s with vwv := (s.vwv.update (some last) t.volume).2 }, []) := by
  unfold eval_symbol
  simp only [hlast]
  rw [if_neg (by rw [hskip]; exact Bool.false_ne_true)]
  rw [widen_eval_error _ _ _ _ BUY_LADDER_ANCHOR_IDX _ (by split_ifs <;> norm_num) rfl
    (by simp [levels_down, BUY_LADDER_MULTS])
    (by simp [levels_down, BUY_LADDER_MULTS])
    (by simp [levels_down, BUY_LADDER_MULTS])]

theorem eval_symbol_none_state (cfg : Config) (feats : Anchors ℝ) (tnow : Time)
    (now_ts : ℝ) (ticker : Option Quote) (fills : FillEnv) (s : SymState) :
    ∃ v, eval_symbol none cfg feats tnow now_ts ticker fills s =
      ({ s with vwv := v }, []) := by
  rcases ticker with - | t
  · exact ⟨s.vwv, rfl⟩
  · cases hlast : ([t.last, t.close, t.mktPrice].filterMap sanitize_price).head? with
    | none =>
      refine ⟨s.vwv, ?_⟩
      unfold eval_symbol
      simp only [hlast]
    | some last =>
      cases hskip : spr_skip_check cfg.klass (sanitize_price t.bid) (sanitize_price t.ask) with
      | true =>
        refine ⟨s.vwv, ?_⟩
        unfold eval_symbol
        simp only [hlast]
        rw [if_pos hskip]
      | false =>
        exact ⟨(s.vwv.update (some last) t.volume).2,
          eval_symbol_none_eq cfg feats tnow now_ts t fills s last hlast hskip⟩

theorem sync_step_orders_cover (now_ts : ℝ) (e : BrokerEvent) (s : SymState) :
    ∀ o ∈ (sync_step now_ts e s).2, o.tag = OrderTag.anti_short_cover := by
  rcases he : e.report with - | ⟨bpos, bavg⟩ <;> simp only [sync_step, he]
  · simp
  · split_ifs <;> simp_all

theorem sync_step_trail (now_ts : ℝ) (e : BrokerEvent) (s : SymState) :
    (sync_step now_ts e s).1.trail_hi = s.trail_hi := by
  rcases he : e.report with - | ⟨bpos, bavg⟩ <;> simp only [sync_step, he]
  split_ifs <;> rfl

theorem tick_none_state (cfg : Config) (feats : Anchors ℝ) (tnow : Time)
    (now_ts : ℝ) (env : TickEnv) (s : SymState) :
    ∃ v, (tick none cfg feats tnow now_ts env s).1 =
      { (sync_step now_ts env.broker s).1 with vwv := v } := by
  unfold tick
  split_ifs
  · obtain ⟨v, hv⟩ := eval_symbol_none_state cfg feats tnow now_ts env.ticker env.fills
      (sync_step now_ts env.broker s).1
    refine ⟨v, ?_⟩
    show (eval_symbol none cfg feats tnow now_ts env.ticker env.fills
      (sync_step now_ts env.broker s).1).1 = _
    rw [hv]
  · exact ⟨(sync_step now_ts env.broker s).1.vwv, rfl⟩

theorem tick_none_orders (cfg : Config) (feats : Anchors ℝ) (tnow : Time)
    (now_ts : ℝ) (env : TickEnv) (s : SymState) :
    ∀ o ∈ (tick none cfg feats tnow now_ts env s).2,
      o.tag = OrderTag.anti_short_cover := by
  intro o ho
  by_cases hr : in_rth tnow
  · obtain ⟨v, hv⟩ := eval_symbol_none_state cfg feats tnow now_ts env.ticker env.fills
      (sync_step now_ts env.broker s).1
    have he : (tick none cfg feats tnow now_ts env s).2 =
        (sync_step now_ts env.broker s).2 := by
      unfold tick
      rw [if_pos hr]
      show ((sync_step now_ts env.broker s).2 ++
        (eval_symbol none cfg feats tnow now_ts env.ticker env.fills
          (sync_step now_ts env.broker s).1).2) = _
      rw [hv]
      simp
    rw [he] at ho
    exact sync_step_orders_cover _ _ _ o ho
  · have he : tick none cfg feats tnow now_ts env s = sync_step now_ts env.broker s := by
      unfold tick
      rw [if_neg hr]
    rw [he] at ho
    exact sync_step_orders_cover _ _ _ o ho

theorem tick_none_trail (cfg : Config) (feats : Anchors ℝ) (tnow : Time)
    (now_ts : ℝ) (env : TickEnv) (s : SymState) :
    (tick none cfg feats tnow now_ts env s).1.trail_hi = s.trail_hi := by
  obtain ⟨v, hv⟩ := tick_none_state cfg feats tnow now_ts env s
  rw [hv]
  exact sync_step_trail now_ts env.broker s

theorem tick_run_none_trail (cfg : Config) (feats : Anchors ℝ)
    (trace : List (Time × ℝ × TickEnv)) :
    (tick_run none cfg feats trace).trail_hi = 0 := by
  unfold tick_run
  have key : ∀ (l : List (Time × ℝ × TickEnv)) (s : SymState), s.trail_hi = 0 →
      (l.foldl (fun s x => (tick none cfg feats x.1 x.2.1 x.2.2 s).1) s).trail_hi = 0 := by
    intro l
    induction l with
    | nil => intro s hs; exact hs
    | cons x xs ih =>
      intro s hs
      exact ih _ ((tick_none_trail cfg feats x.1 x.2.1 x.2.2 s).trans hs)
  exact key trace initSymState rfl

theorem eval_symbol_pos (adm? : Option ℝ) (cfg : Config) (feats : Anchors ℝ)
    (tnow : Time) (now_ts : ℝ) (ticker : Option Quote) (fills : FillEnv)
    (s : SymState) (h : 0 ≤ s.pos) :
    0 ≤ (eval_symbol adm? cfg feats tnow now_ts ticker fills s).1.pos := by
  unfold eval_symbol
  rcases ticker with - | t
  · exact h
  · cases hlast : ([t.last, t.close, t.mktPrice].filterMap sanitize_price).head? with
    | none => simp only [hlast]; exact h
    | some last =>
      simp only [hlast]
      split
      · exact h
      · split
        · exact h
        · split
          · exact h
          · apply trail_block_pos
            apply hs_block_pos
            apply bk_block_pos
            apply trims_block_pos
            apply entry_block_pos
            exact h

theorem tick_pos (adm? : Option ℝ) (cfg : Config) (feats : Anchors ℝ) (tnow : Time)
    (now_ts : ℝ) (env : TickEnv) (s : SymState) (h : 0 ≤ s.pos) :
    0 ≤ (tick adm? cfg feats tnow now_ts env s).1.pos := by
  unfold tick
  split_ifs
  · dsimp only
    exact eval_symbol_pos _ _ _ _ _ _ _ _ (sync_step_pos _ _ _ h)
  · exact sync_step_pos _ _ _ h

/-- Claim C1: starting from the all-zero local state, the local position stays
non-negative along every run of the control loop — whatever the
`ANCHOR_DISTANCE_MULT` lookup yields, so in particular for the shipped
program (`none`, where every evaluation aborts at the widening call) — and
after every reconciliation step: the per-tick position sync maps any state
with a non-negative position (for every broker report, with or without a
contract, and for every anti-short cover fill outcome) to a state with a
non-negative position. -/
theorem local_position_nonneg :
    (∀ (adm? : Option ℝ) (cfg : Config) (feats : Anchors ℝ)
        (trace : List (Time × ℝ × TickEnv)),
      0 ≤ (tick_run adm? cfg feats trace).pos) ∧
    (∀ (now_ts : ℝ) (e : BrokerEvent) (s : SymState), 0 ≤ s.pos →
      0 ≤ (sync_step now_ts e s).1.pos) := by
  constructor
  · intro adm? cfg feats trace
    unfold tick_run
    have key : ∀ (l : List (Time × ℝ × TickEnv)) (s : SymState), 0 ≤ s.pos →
        0 ≤ (l.foldl (fun s x => (tick adm? cfg feats x.1 x.2.1 x.2.2 s).1) s).pos := by
      intro l
      induction l with
      | nil => intro s hs; exact hs
      | cons x xs ih => intro s hs; exact ih _ (tick_pos _ _ _ _ _ _ _ hs)
    exact key trace initSymState (by norm_num [initSymState])
  · exact sync_step_pos

/-- Witness for C1 at a concrete short report of -3 shares with a partial
(1-share) cover fill: the sync's `continue` path leaves the non-negative
local position untouched. -/
theorem local_position_nonneg_witness :
    0 ≤ initSymState.pos ∧
    0 ≤ (sync_step 0 ⟨some (-3, 10), true, some 5, none, some 4, some 6, (some 5, 1)⟩
          initSymState).1.pos :=
  ⟨by norm_num [initSymState],
   local_position_nonneg.2 0 ⟨some (-3, 10), true, some 5, none, some 4, some 6, (some 5, 1)⟩
     initSymState (by norm_num [initSymState])⟩

/-! ### Claim C2 — what an out-of-hours tick does -/

/-- Claim C2 as amended: the gate that skips trading logic is `in_rth`
(regular trading hours, 09:30-16:00), not the session windows — midday
`OFF_SESSION` ticks do enter the evaluation body and mutate the VWV tracker
(see the counterexample).  What does hold: (i) for every value of the
`ANCHOR_DISTANCE_MULT` lookup, a tick outside regular hours is exactly the
position sync — same state, same orders; (ii) the position sync can submit
nothing but anti-short covers; and (iii) in the program as shipped (`none`
lookup: the global is undefined), every tick — in or out of hours — submits
nothing but anti-short covers, because the evaluation body aborts at the
display-widening `NameError` (dronebot.py:624) before any ladder or risk
order is placed. -/
theorem off_rth_tick_sync_only :
    (∀ (adm? : Option ℝ) (cfg : Config) (feats : Anchors ℝ) (tnow : Time)
        (now_ts : ℝ) (env : TickEnv) (s : SymState), ¬ in_rth tnow →
      tick adm? cfg feats tnow now_ts env s = sync_step now_ts env.broker s) ∧
    (∀ (now_ts : ℝ) (e : BrokerEvent) (s : SymState),
      ∀ o ∈ (sync_step now_ts e s).2, o.tag = OrderTag.anti_short_cover) ∧
    (∀ (cfg : Config) (feats : Anchors ℝ) (tnow : Time) (now_ts : ℝ) (env : TickEnv)
        (s : SymState),
      ∀ o ∈ (tick none cfg feats tnow now_ts env s).2,
        o.tag = OrderTag.anti_short_cover) := by
  refine ⟨?_, sync_step_orders_cover, tick_none_orders⟩
  intro adm? cfg feats tnow now_ts env s h
  unfold tick
  rw [if_neg h]

/-- The per-symbol configuration used by the concrete traces: a risky symbol
with base buy 2%, base sell 1.5% and a $1000 clip override. -/
noncomputable def cfgRisky : Config := ⟨"risky", 2, 3/2, some 1000, 1⟩

/-- Empty anchors (the historical seed failed; `feats_map.get(sym, {})`). -/
noncomputable def featsEmpty : Anchors ℝ := ⟨none, none, none⟩

/-- No order gets filled. -/
noncomputable def fillsNone : FillEnv := ⟨(none, 0), (none, 0), (none, 0), (none, 0), (none, 0)⟩

/-- Broker reports a flat (zero) position. -/
noncomputable def brokerFlat : BrokerEvent := ⟨some (0, 0), true, none, none, none, none, (none, 0)⟩

/-- Broker reports a short position of 3 shares at average cost 10. -/
noncomputable def brokerShort3 : BrokerEvent :=
  ⟨some (-3, 10), true, none, none, none, none, (none, 0)⟩

/-- Off-hours tick environment: the short broker report and no quote. -/
noncomputable def envShort3 : TickEnv := ⟨brokerShort3, none, fillsNone⟩

/-- Witness for the amended C2: a 08:00 tick with a short broker report is
the sync alone (shown with the lookup given as 2.0), and the concrete
anti-short cover IOC that the sync — and therefore the whole shipped tick —
submits carries the anti-short-cover tag. -/
theorem off_rth_tick_sync_only_witness :
    (¬ in_rth (hm 8 0) ∧
      tick (some 2) cfgRisky featsEmpty (hm 8 0) 28800 envShort3 initSymState =
        sync_step 28800 envShort3.broker initSymState) ∧
    ((⟨OrderTag.anti_short_cover, 3,
        round4 (ioc_buy_limit none none (pyOr (none : Option ℝ) none) "urgent"),
        true⟩ : Order) ∈ (sync_step 28800 brokerShort3 initSymState).2 ∧
      (⟨OrderTag.anti_short_cover, 3,
        round4 (ioc_buy_limit none none (pyOr (none : Option ℝ) none) "urgent"),
        true⟩ : Order) ∈
          (tick none cfgRisky featsEmpty (hm 8 0) 28800 envShort3 initSymState).2) ∧
    (⟨OrderTag.anti_short_cover, 3,
      round4 (ioc_buy_limit none none (pyOr (none : Option ℝ) none) "urgent"),
      true⟩ : Order).tag = OrderTag.anti_short_cover := by
  have hsync : (sync_step 28800 brokerShort3 initSymState).2 =
      [⟨OrderTag.anti_short_cover, 3,
        round4 (ioc_buy_limit none none (pyOr (none : Option ℝ) none) "urgent"), true⟩] := by
    norm_num [sync_step, brokerShort3, initSymState]
  have hmem1 : (⟨OrderTag.anti_short_cover, 3,
      round4 (ioc_buy_limit none none (pyOr (none : Option ℝ) none) "urgent"),
      true⟩ : Order) ∈ (sync_step 28800 brokerShort3 initSymState).2 := by
    rw [hsync]
    exact List.mem_singleton.2 rfl
  have ht := off_rth_tick_sync_only.1 none cfgRisky featsEmpty (hm 8 0) 28800 envShort3
    initSymState (by decide)
  have hmem2 : (⟨OrderTag.anti_short_cover, 3,
      round4 (ioc_buy_limit none none (pyOr (none : Option ℝ) none) "urgent"),
      true⟩ : Order) ∈
      (tick none cfgRisky featsEmpty (hm 8 0) 28800 envShort3 initSymState).2 := by
    rw [ht]
    exact hmem1
  refine ⟨⟨by decide,
      off_rth_tick_sync_only.1 (some 2) cfgRisky featsEmpty (hm 8 0) 28800 envShort3
        initSymState (by decide)⟩,
    ⟨hmem1, hmem2⟩, ?_⟩
  have h1 := off_rth_tick_sync_only.2.1 28800 brokerShort3 initSymState _ hmem1
  have h2 := off_rth_tick_sync_only.2.2 cfgRisky featsEmpty (hm 8 0) 28800 envShort3
    initSymState _ hmem2
  exact h1.trans (h2.symm.trans h2)

/-! ### Claim C3 — the trailing high-water mark of a flat position -/

/-- Auxiliary fact about the sell paths of the evaluation body: each of the
four — ladder trim, breakeven trim, hard stop and trailing stop — zeroes both
the average cost and the trailing high-water mark whenever it zeroes the
position.  (In the shipped program these blocks are unreachable, since the
evaluation aborts at the display-widening `NameError` first; the lemma is
about the blocks as written at dronebot.py:687-745.) -/
theorem exit_blocks_zero_trail :
    ∀ (bid : Option ℝ) (last : ℝ) (cumulative : List ℤ) (active levels_hit : ℕ)
      (sell_ok : Bool) (fill : Option ℝ × ℤ) (s : SymState),
      (0 < s.pos →
        (trims_block bid last cumulative active levels_hit sell_ok fill s).1.pos = 0 →
        (trims_block bid last cumulative active levels_hit sell_ok fill s).1.trail_hi = 0 ∧
        (trims_block bid last cumulative active levels_hit sell_ok fill s).1.avg = 0) ∧
      (0 < s.pos → (bk_block bid last sell_ok fill s).1.pos = 0 →
        (bk_block bid last sell_ok fill s).1.trail_hi = 0 ∧
        (bk_block bid last sell_ok fill s).1.avg = 0) ∧
      (0 < s.pos → (hs_block bid last fill s).1.pos = 0 →
        (hs_block bid last fill s).1.trail_hi = 0 ∧
        (hs_block bid last fill s).1.avg = 0) ∧
      (0 < s.pos → (trail_block bid last fill s).1.pos = 0 →
        (trail_block bid last fill s).1.trail_hi = 0 ∧
        (trail_block bid last fill s).1.avg = 0) := by
  intro bid last cumulative active levels_hit sell_ok fill s
  refine ⟨?_, ?_, ?_, ?_⟩ <;>
    (intro hpos h0
     rcases fill with ⟨_ | px, filled⟩) <;>
    first
      | (simp only [trims_block] at h0 ⊢) | (simp only [bk_block] at h0 ⊢)
      | (simp only [hs_block] at h0 ⊢) | (simp only [trail_block] at h0 ⊢)
  all_goals split_ifs at h0 ⊢ <;> simp_all <;> omega

/-- Concrete check of the sell-path lemma: one position-zeroing fill through
each of the four sell paths, each leaving trail-high and average cost at 0. -/
theorem exit_blocks_zero_trail_witness :
    ((trims_block none 95 [5] 1 1 true (some 95, 5) ⟨5, 90, 0, 100, 0, ⟨120, [], none⟩⟩).1.trail_hi = 0 ∧
      (trims_block none 95 [5] 1 1 true (some 95, 5) ⟨5, 90, 0, 100, 0, ⟨120, [], none⟩⟩).1.avg = 0) ∧
    ((bk_block none 11 true (some 11, 4) ⟨4, 10, 0, 50, 0, ⟨120, [], none⟩⟩).1.trail_hi = 0 ∧
      (bk_block none 11 true (some 11, 4) ⟨4, 10, 0, 50, 0, ⟨120, [], none⟩⟩).1.avg = 0) ∧
    ((hs_block none 94 (some 94, 3) ⟨3, 100, 0, 120, 0, ⟨120, [], none⟩⟩).1.trail_hi = 0 ∧
      (hs_block none 94 (some 94, 3) ⟨3, 100, 0, 120, 0, ⟨120, [], none⟩⟩).1.avg = 0) ∧
    ((trail_block none 97 (some 97, 5) ⟨5, 90, 0, 100, 0, ⟨120, [], none⟩⟩).1.trail_hi = 0 ∧
      (trail_block none 97 (some 97, 5) ⟨5, 90, 0, 100, 0, ⟨120, [], none⟩⟩).1.avg = 0) := by
  refine ⟨?_, ?_, ?_, ?_⟩
  · exact (exit_blocks_zero_trail none 95 [5] 1 1 true (some 95, 5)
      ⟨5, 90, 0, 100, 0, ⟨120, [], none⟩⟩).1 (by norm_num) (by norm_num [trims_block])
  · exact (exit_blocks_zero_trail none 11 [] 0 0 true (some 11, 4)
      ⟨4, 10, 0, 50, 0, ⟨120, [], none⟩⟩).2.1 (by norm_num) (by norm_num [bk_block])
  · exact (exit_blocks_zero_trail none 94 [] 0 0 true (some 94, 3)
      ⟨3, 100, 0, 120, 0, ⟨120, [], none⟩⟩).2.2.1 (by norm_num) (by norm_num [hs_block])
  · exact (exit_blocks_zero_trail none 97 [] 0 0 true (some 97, 5)
      ⟨5, 90, 0, 100, 0, ⟨120, [], none⟩⟩).2.2.2 (by norm_num) (by norm_num [trail_block, max_def])

/-- The quote used by the midday counterexample trace: last 90, close 100,
bid 89.5, ask 90.5, cumulative volume 500. -/
noncomputable def quoteMidday : Quote :=
  ⟨some 90, some 100, none, some (895/10), some (905/10), none, some 500⟩

/-- Midday tick environment: flat broker report and the quote above. -/
noncomputable def envMidday : TickEnv := ⟨brokerFlat, some quoteMidday, fillsNone⟩

/-- Counterexample to C2 as stated: 12:00 is outside both session windows
(`OFF_SESSION`), yet the tick is not reconciliation alone — the skip gate of
`run_live` is `in_rth` (dronebot.py:557), not `in_session`, so the evaluation
body runs and mutates the VWV tracker (the update at dronebot.py:598 stores
the quote's cumulative volume 500) before dying at the display-widening
`NameError`; reconciliation alone leaves the tracker untouched, and the
aborted tick submits no order. -/
theorem off_session_midday_evaluation_counterexample :
    ¬ in_session (hm 12 0) ∧
    (tick none cfgRisky featsEmpty (hm 12 0) 43200 envMidday
        initSymState).1.vwv.last_total_vol = some 500 ∧
    (sync_step 43200 envMidday.broker initSymState).1.vwv.last_total_vol = none ∧
    (tick none cfgRisky featsEmpty (hm 12 0) 43200 envMidday initSymState).2 = [] := by
  have hsync : sync_step 43200 envMidday.broker initSymState = (initSymState, []) := by
    norm_num [sync_step, envMidday, brokerFlat, initSymState]
  have hlast : ([quoteMidday.last, quoteMidday.close, quoteMidday.mktPrice].filterMap
      sanitize_price).head? = some 90 := by
    norm_num [quoteMidday, sanitize_price, List.filterMap_cons]
  have hskip : spr_skip_check cfgRisky.klass (sanitize_price quoteMidday.bid)
      (sanitize_price quoteMidday.ask) = false := by
    norm_num [spr_skip_check, cfgRisky, quoteMidday, sanitize_price, spread_bps, truthy]
  have heval := eval_symbol_none_eq cfgRisky featsEmpty (hm 12 0) 43200 quoteMidday
    fillsNone initSymState 90 hlast hskip
  have h_upd : VWVState.update ⟨120, [], none⟩ (some 90) (some 500) =
      (0, ⟨120, [], some 500⟩) := by
    unfold VWVState.update
    rw [if_neg (by simp [truthy])]
    norm_num
  have htick : tick none cfgRisky featsEmpty (hm 12 0) 43200 envMidday initSymState =
      (⟨0, 0, 0, 0, 0, ⟨120, [], some 500⟩⟩, []) := by
    unfold tick
    rw [if_pos (by decide : in_rth (hm 12 0))]
    dsimp only
    rw [hsync]
    dsimp only
    rw [show envMidday.ticker = some quoteMidday from rfl,
        show envMidday.fills = fillsNone from rfl, heval,
        show quoteMidday.volume = some 500 from rfl,
        show initSymState.vwv = (⟨120, [], none⟩ : VWVState) from rfl, h_upd]
    rfl
  refine ⟨by decide, ?_, ?_, ?_⟩
  · rw [htick]
  · rw [hsync]
    rfl
  · rw [htick]

/-- Broker reports a long position of 11 shares at average cost 92.5. -/
noncomputable def brokerLong11 : BrokerEvent :=
  ⟨some (11, 185/2), true, none, none, none, none, (none, 0)⟩

/-- A quiet quote at 92.5: no ladder level is hit and no exit triggers. -/
noncomputable def quoteQuiet : Quote :=
  ⟨some (185/2), some (185/2), none, some 92, some 93, none, some 1000⟩

/-- Tick environment of the first C3 witness tick. -/
noncomputable def envLongQuiet : TickEnv := ⟨brokerLong11, some quoteQuiet, fillsNone⟩

/-- Tick environment of the second C3 witness tick: flat broker report,
outside regular hours. -/
noncomputable def envFlatDark : TickEnv := ⟨brokerFlat, none, fillsNone⟩

/-- Claim C3: in every reachable state of the control loop as shipped (the
`ANCHOR_DISTANCE_MULT` lookup is `none`, since the global is undefined), if
the local position is 0 then the trailing high-water mark is 0.  The
invariant holds in a strong form: the high-water mark is 0 in every reachable
state whatsoever, because every write to it (dronebot.py:685, 735) lies
beyond the display-widening `NameError` at line 624, and position
reconciliation never touches it. -/
theorem flat_position_zero_trail :
    ∀ (cfg : Config) (feats : Anchors ℝ) (trace : List (Time × ℝ × TickEnv)),
      (tick_run none cfg feats trace).trail_hi = 0 ∧
      ((tick_run none cfg feats trace).pos = 0 →
        (tick_run none cfg feats trace).trail_hi = 0) := by
  intro cfg feats trace
  exact ⟨tick_run_none_trail cfg feats trace,
    fun _ => tick_run_none_trail cfg feats trace⟩

/-- Witness for C3 at a concrete two-tick trace that ends flat: a quiet
midday tick adopts a broker long of 11 at 92.5, then an off-hours tick with a
flat broker report zeroes the position; the run ends with position 0, and the
claim's implication yields a zero trailing high-water mark. -/
theorem flat_position_zero_trail_witness :
    (tick_run none cfgRisky featsEmpty
        [(hm 12 0, 43200, envLongQuiet), (hm 8 0, 28800, envFlatDark)]).pos = 0 ∧
    (tick_run none cfgRisky featsEmpty
        [(hm 12 0, 43200, envLongQuiet), (hm 8 0, 28800, envFlatDark)]).trail_hi = 0 := by
  have hs1 : (sync_step 43200 envLongQuiet.broker initSymState).1 =
      (⟨11, 185/2, 0, 0, 0, ⟨120, [], none⟩⟩ : SymState) := by
    norm_num [sync_step, envLongQuiet, brokerLong11, initSymState, max_def]
  obtain ⟨v1, h1⟩ := tick_none_state cfgRisky featsEmpty (hm 12 0) 43200 envLongQuiet
    initSymState
  rw [hs1] at h1
  have h1' : (tick none cfgRisky featsEmpty (hm 12 0) 43200 envLongQuiet initSymState).1 =
      (⟨11, 185/2, 0, 0, 0, v1⟩ : SymState) := h1
  obtain ⟨v2, h2⟩ := tick_none_state cfgRisky featsEmpty (hm 8 0) 28800 envFlatDark
    (⟨11, 185/2, 0, 0, 0, v1⟩ : SymState)
  have hs2 : (sync_step 28800 envFlatDark.broker
      (⟨11, 185/2, 0, 0, 0, v1⟩ : SymState)).1 = (⟨0, 0, 0, 0, 0, v1⟩ : SymState) := by
    norm_num [sync_step, envFlatDark, brokerFlat]
  rw [hs2] at h2
  have h2' : (tick none cfgRisky featsEmpty (hm 8 0) 28800 envFlatDark
      (⟨11, 185/2, 0, 0, 0, v1⟩ : SymState)).1 = (⟨0, 0, 0, 0, 0, v2⟩ : SymState) := h2
  have hrun : tick_run none cfgRisky featsEmpty
      [(hm 12 0, 43200, envLongQuiet), (hm 8 0, 28800, envFlatDark)] =
      (⟨0, 0, 0, 0, 0, v2⟩ : SymState) := by
    unfold tick_run
    simp only [List.foldl_cons, List.foldl_nil]
    rw [h1', h2']
  have hpos : (tick_run none cfgRisky featsEmpty
      [(hm 12 0, 43200, envLongQuiet), (hm 8 0, 28800, envFlatDark)]).pos = 0 := by
    rw [hrun]
  exact ⟨hpos, (flat_position_zero_trail cfgRisky featsEmpty
    [(hm 12 0, 43200, envLongQuiet), (hm 8 0, 28800, envFlatDark)]).2 hpos⟩
